import Mathlib

/-!
# Verification of the task-tracker authentication-and-ownership core

Shallow embedding of the backend of the Task-Management-and-Productivity-Tracker
repository:

* `src/backend/controllers/taskController.js` (`getAllTasks`, `createTask`,
  `updateTask`, `deleteTask`, `markTaskCompleted`),
* `src/backend/middleware/auth.js` (`authMiddleware`),
* `src/backend/controllers/authController.js` (`register`, `login`,
  `generateToken`),
* `src/backend/models/User.js` (email normalisation, password hashing,
  uniqueness check),
* `models/Task.js` (the task schema: trim setters on title and description,
  required title, priority/status enums, status default Pending,
  timestamps).

The MongoDB store is modelled as a Lean list of documents; `Task.find`,
`Task.findOne`, `Task.create`, `task.save` and `Task.findByIdAndDelete`
are modelled by the corresponding list operations.  JavaScript string
truthiness (`if (title)`, `description || ""`) is modelled explicitly.
-/

namespace TaskTracker

/-- A task document, as stored in the `tasks` collection.  Field names follow
the Mongoose schema used by the controller: `_id` is `id`, the enum-valued
fields are stored as the strings the code compares against. -/
structure Task where
  id : Nat
  title : String
  description : String
  priority : String
  status : String
  userId : Nat
  createdAt : Nat
deriving DecidableEq, Repr

/-- JavaScript truthiness of an optional string field of a JSON body:
`undefined` and the empty string are falsy, every other string is truthy. -/
def truthy : Option String → Bool
  | none => false
  | some s => !s.isEmpty

/-- JavaScript `o || d` for an optional string `o`: the default is used when
the field is absent or the empty string (the only falsy string). -/
def jsOr (o : Option String) (d : String) : String :=
  match o with
  | none => d
  | some s => if s.isEmpty then d else s

/-- The `trim: true` setter of a schema string path (models/Task.js gives it
to `title` and `description`), on the character list of the string: strip
leading and trailing whitespace. -/
def trimString (s : String) : String :=
  String.mk ((s.data.dropWhile Char.isWhitespace).reverse.dropWhile Char.isWhitespace).reverse

/-- The priority enum of the task schema, as checked by the controller:
`["High", "Medium", "Low"].includes(priority)`. -/
def priorities : List String := ["High", "Medium", "Low"]

/-- The status enum of the task schema, as checked by the controller:
`["Pending", "Completed"].includes(status)`. -/
def statuses : List String := ["Pending", "Completed"]

/-- `Task.findOne({ _id: taskId, userId })`: the first document matching both
the task id and the owner identity. -/
def findTask (taskId userId : Nat) (tasks : List Task) : Option Task :=
  tasks.find? fun t => t.id == taskId && t.userId == userId

/-- `task.save()`: persist the (mutated) document `t` in place of the stored
document with the same `_id`. -/
def saveTask (t : Task) (tasks : List Task) : List Task :=
  tasks.map fun x => if x.id == t.id then t else x

/-- Result of a task-controller call: HTTP status code, the `tasks`
collection after the call, and the task document returned in the JSON
response (when the handler returns one). -/
structure TaskResult where
  code : Nat
  tasks : List Task
  task : Option Task
deriving DecidableEq, Repr

/-- One insertion step of the store sort used by `getAllTasks`. -/
def insertDesc (t : Task) : List Task → List Task
  | [] => [t]
  | x :: xs => if x.createdAt ≤ t.createdAt then t :: x :: xs else x :: insertDesc t xs

/-- `.sort({ createdAt: -1 })`: the store returns the matched documents
ordered by creation timestamp, newest first. -/
def sortByCreatedDesc : List Task → List Task
  | [] => []
  | x :: xs => insertDesc x (sortByCreatedDesc xs)

/-- `getAllTasks` (src/backend/controllers/taskController.js): return every
task of the logged-in user via
`Task.find({ userId }).sort({ createdAt: -1 })`, with status 200.
The collection itself is not modified, so the result is the status code
together with the response array. -/
def getAllTasks (userId : Nat) (tasks : List Task) : Nat × List Task :=
  (200, sortByCreatedDesc (tasks.filter fun t => t.userId == userId))

/-- The JSON body of a create request.  The controller destructures only
`{ title, description, priority }`; a client-supplied `status` or `userId`
is carried here to show it is ignored. -/
structure CreateBody where
  title : Option String
  description : Option String
  priority : Option String
  status : Option String
  bodyUserId : Option Nat
deriving DecidableEq, Repr

/-- Document construction of `Task.create` through the task schema
(models/Task.js): the `trim: true` setters strip surrounding whitespace from
`title` and `description`, `status` initialises to its schema default
`"Pending"`, the owner is the `userId` the controller passes, and
`timestamps: true` stamps `createdAt`. -/
def Task.createDoc (title description priority : String) (userId freshId now : Nat) : Task :=
  { id := freshId, title := trimString title, description := trimString description,
    priority := priority, status := "Pending", userId := userId, createdAt := now }

/-- `createTask` (src/backend/controllers/taskController.js): reject with 400
when `!title || !priority`; reject with 400 when the priority is outside the
enum; otherwise `Task.create` builds the document through the schema setters
and validates it — a title that trims to the empty string fails the schema's
required validator, and the thrown error surfaces as the generic 500 of the
catch block with nothing stored (the priority enum validator cannot fail
here, the controller just checked it) — and on success the call responds
201 with the stored document. -/
def createTask (userId : Nat) (body : CreateBody) (freshId now : Nat)
    (tasks : List Task) : TaskResult :=
  if !truthy body.title || !truthy body.priority then
    ⟨400, tasks, none⟩
  else if !priorities.contains (jsOr body.priority "") then
    ⟨400, tasks, none⟩
  else
    let doc := Task.createDoc (jsOr body.title "") (jsOr body.description "")
      (jsOr body.priority "") userId freshId now
    if doc.title.isEmpty then
      ⟨500, tasks, none⟩
    else
      ⟨201, tasks ++ [doc], some doc⟩

/-- The JSON body of an update request; every field is optional. -/
structure UpdateBody where
  title : Option String
  description : Option String
  priority : Option String
  status : Option String
deriving DecidableEq, Repr

/-- `updateTask` (src/backend/controllers/taskController.js): look the task up
by `{ _id: taskId, userId }` (404 when absent); apply `title` when truthy and
`description` whenever it is not `undefined` — both pass through the trim
setters of the schema (models/Task.js) on assignment — and `priority` and
`status` when truthy after validating them against their enums (400 on a bad
value, before `task.save()` runs, so nothing is persisted); finally
`task.save()` validates the document — a title that trimmed to the empty
string fails the schema's required validator and the thrown error surfaces
as the generic 500 of the catch block with nothing persisted, while the enum
validators cannot fail since only controller-checked values were assigned —
and on success the call responds 200. -/
def updateTask (userId taskId : Nat) (body : UpdateBody) (tasks : List Task) : TaskResult :=
  match findTask taskId userId tasks with
  | none => ⟨404, tasks, none⟩
  | some task =>
    let t1 := if truthy body.title
      then { task with title := trimString (jsOr body.title "") } else task
    let t2 := match body.description with
      | some d => { t1 with description := trimString d }
      | none => t1
    if truthy body.priority && !priorities.contains (jsOr body.priority "") then
      ⟨400, tasks, none⟩
    else
      let t3 := if truthy body.priority then { t2 with priority := jsOr body.priority "" } else t2
      if truthy body.status && !statuses.contains (jsOr body.status "") then
        ⟨400, tasks, none⟩
      else
        let t4 := if truthy body.status then { t3 with status := jsOr body.status "" } else t3
        if t4.title.isEmpty then
          ⟨500, tasks, none⟩
        else
          ⟨200, saveTask t4 tasks, some t4⟩

/-- `deleteTask` (src/backend/controllers/taskController.js): ownership-gated
lookup (404 when absent), then `Task.findByIdAndDelete(taskId)` removes the
document with that `_id`, and the call responds 200. -/
def deleteTask (userId taskId : Nat) (tasks : List Task) : TaskResult :=
  match findTask taskId userId tasks with
  | none => ⟨404, tasks, none⟩
  | some _ => ⟨200, tasks.filter (fun x => x.id != taskId), none⟩

/-- `markTaskCompleted` (src/backend/controllers/taskController.js):
ownership-gated lookup (404 when absent), then unconditionally set
`task.status = "Completed"`, save, and respond 200. -/
def markTaskCompleted (userId taskId : Nat) (tasks : List Task) : TaskResult :=
  match findTask taskId userId tasks with
  | none => ⟨404, tasks, none⟩
  | some task =>
    let t := { task with status := "Completed" }
    ⟨200, saveTask t tasks, some t⟩

/-! ## Access Guard (src/backend/middleware/auth.js) -/

/-- JavaScript `str.split(c)` for a single-character separator, on the
character list of the string: splits at every occurrence of `c`, keeping
empty components (so `"a b".split(one blank)` gives two components and
`"a"` gives one). -/
def splitChar (c : Char) : List Char → List (List Char)
  | [] => [[]]
  | x :: xs =>
    match splitChar c xs with
    | [] => [[]]
    | w :: ws => if x = c then [] :: w :: ws else (x :: w) :: ws

/-- `authHeader.split(one blank)[1]` followed by the `if (!token)` check:
the token is the second whitespace-separated component of the header, and a
missing or empty second component counts as no token. -/
def extractToken (h : String) : Option String :=
  match (splitChar ' ' h.data)[1]? with
  | none => none
  | some tok => if tok.isEmpty then none else some (String.mk tok)

/-- `authMiddleware` (src/backend/middleware/auth.js), parameterised by the
behaviour of `jwt.verify(token, JWT_SECRET)` — `verify tok = some uid` models
a successful verification decoding to `{ userId: uid }`, `none` models the
thrown error (bad signature, malformed, expired).  The middleware answers
`.error 401` on a missing header, a missing/empty token, or a failed
verification, and `.ok uid` (which the route plumbing turns into
`req.userId = uid; next()`) otherwise. -/
def authMiddleware (verify : String → Option Nat) (authHeader : Option String) :
    Except Nat Nat :=
  match authHeader with
  | none => Except.error 401
  | some h =>
    match extractToken h with
    | none => Except.error 401
    | some tok =>
      match verify tok with
      | none => Except.error 401
      | some uid => Except.ok uid

/-- A protected task route (src/backend/routes/tasks.js):
`router.verb(path, authMiddleware, handler)` — the middleware either responds
401 itself (the handler never runs, the collection is untouched) or invokes
the handler with `req.userId` set to the resolved identity. -/
def handleProtected (verify : String → Option Nat) (authHeader : Option String)
    (handler : Nat → List Task → TaskResult) (tasks : List Task) : TaskResult :=
  match authMiddleware verify authHeader with
  | Except.error c => ⟨c, tasks, none⟩
  | Except.ok uid => handler uid tasks

/-! ## Token Service (jsonwebtoken, as used by authController.js) -/

/-- A signed token: `jwt.sign({ userId }, JWT_SECRET, { expiresIn: "7d" })`
embeds the identity and an expiry 7 days out; the signature is modelled by
recording the signing secret (verification succeeds exactly against the same
secret). -/
structure JWT where
  userId : Nat
  exp : Nat
  sig : Nat
deriving DecidableEq, Repr

/-- `generateToken` (src/backend/controllers/authController.js): sign
`{ userId }` with the process secret, expiring 7 days (in seconds) from
issuance. -/
def generateToken (userId secret now : Nat) : JWT :=
  { userId := userId, exp := now + 7 * 24 * 60 * 60, sig := secret }

/-- `jwt.verify` on a structurally well-formed token: succeeds with the
embedded identity exactly when the signature matches the secret and the
token has not expired. -/
def verifyToken (secret now : Nat) (tok : JWT) : Option Nat :=
  if tok.sig == secret && now < tok.exp then some tok.userId else none

/-! ## Credential Store and auth controller
(src/backend/models/User.js, src/backend/controllers/authController.js) -/

/-- A user document of the `users` collection.  The schema lowercases and
trims the email before storing it.  The `password` field stores the bcrypt
hash; since `comparePassword` succeeds exactly on the original password, the
hash is modelled by the password it was derived from. -/
structure StoredUser where
  id : Nat
  email : String
  password : String
deriving DecidableEq, Repr

/-- The email normalisation of the user schema (`lowercase: true`,
`trim: true`), on the character list of the string: strip leading and
trailing whitespace, then lowercase every character. -/
def normalizeEmail (e : String) : String :=
  String.mk
    (((e.data.dropWhile Char.isWhitespace).reverse.dropWhile Char.isWhitespace).reverse.map
      Char.toLower)

/-- `User.findOne({ email })`: Mongoose casts the filter through the schema,
so the queried email is normalised exactly like a stored one. -/
def findByEmail (e : String) (users : List StoredUser) : Option StoredUser :=
  users.find? fun u => u.email == normalizeEmail e

/-- The `users` collection together with the id generator of the store. -/
structure AuthState where
  users : List StoredUser
  nextId : Nat
deriving DecidableEq, Repr

/-- Result of an auth-controller call: HTTP status code, the store after the
call, and the `token` and `userId` fields of the JSON response when present. -/
structure AuthResult where
  code : Nat
  state : AuthState
  token : Option JWT
  retUserId : Option Nat
deriving DecidableEq, Repr

/-- `register` (src/backend/controllers/authController.js): 400 when email or
password is falsy; 400 when a user with the email already exists; otherwise
`User.create` — whose schema rejects passwords shorter than 6 characters,
surfacing as the generic 500 of the catch block — stores the new user and the
call responds 201 with a fresh token and the new user id. -/
def register (email password : String) (secret now : Nat) (st : AuthState) : AuthResult :=
  if email.isEmpty || password.isEmpty then ⟨400, st, none, none⟩
  else
    match findByEmail email st.users with
    | some _ => ⟨400, st, none, none⟩
    | none =>
      if password.length < 6 then ⟨500, st, none, none⟩
      else
        let u : StoredUser := ⟨st.nextId, normalizeEmail email, password⟩
        ⟨201, ⟨st.users ++ [u], st.nextId + 1⟩,
          some (generateToken u.id secret now), some u.id⟩

/-- `login` (src/backend/controllers/authController.js): 400 when email or
password is falsy; 401 when no user has the email or `comparePassword`
fails; otherwise 200 with a fresh token and the user id. -/
def login (email password : String) (secret now : Nat) (st : AuthState) : AuthResult :=
  if email.isEmpty || password.isEmpty then ⟨400, st, none, none⟩
  else
    match findByEmail email st.users with
    | none => ⟨401, st, none, none⟩
    | some u =>
      if password == u.password then
        ⟨200, st, some (generateToken u.id secret now), some u.id⟩
      else ⟨401, st, none, none⟩

/-! ## Helper lemmas -/

theorem insertDesc_perm (t : Task) (l : List Task) : List.Perm (insertDesc t l) (t :: l) := by
  induction l with
  | nil => simp [insertDesc]
  | cons x xs ih =>
    simp only [insertDesc]
    split
    · exact List.Perm.refl _
    · exact List.Perm.trans (List.Perm.cons x ih) (List.Perm.swap t x xs)

theorem sortByCreatedDesc_perm (l : List Task) : List.Perm (sortByCreatedDesc l) l := by
  induction l with
  | nil => simp [sortByCreatedDesc]
  | cons x xs ih =>
    exact List.Perm.trans (insertDesc_perm x (sortByCreatedDesc xs)) (List.Perm.cons x ih)

theorem mem_insertDesc {u t : Task} {l : List Task} :
    u ∈ insertDesc t l ↔ u = t ∨ u ∈ l := by
  rw [(insertDesc_perm t l).mem_iff, List.mem_cons]

theorem pairwise_insertDesc {t : Task} {l : List Task}
    (h : l.Pairwise fun a b => b.createdAt ≤ a.createdAt) :
    (insertDesc t l).Pairwise fun a b => b.createdAt ≤ a.createdAt := by
  induction l with
  | nil => simp [insertDesc]
  | cons x xs ih =>
    rcases List.pairwise_cons.mp h with ⟨hx, hxs⟩
    simp only [insertDesc]
    split
    · refine List.pairwise_cons.mpr ⟨?_, h⟩
      intro u hu
      rcases List.mem_cons.mp hu with rfl | hu
      · assumption
      · exact le_trans (hx u hu) (by assumption)
    · refine List.pairwise_cons.mpr ⟨?_, ih hxs⟩
      intro u hu
      rcases mem_insertDesc.mp hu with rfl | hu
      · omega
      · exact hx u hu

theorem pairwise_sortByCreatedDesc (l : List Task) :
    (sortByCreatedDesc l).Pairwise fun a b => b.createdAt ≤ a.createdAt := by
  induction l with
  | nil => simp [sortByCreatedDesc]
  | cons x xs ih => exact pairwise_insertDesc ih

theorem findTask_eq_none {tid uid : Nat} {tasks : List Task}
    (h : ∀ t ∈ tasks, ¬(t.id = tid ∧ t.userId = uid)) :
    findTask tid uid tasks = none := by
  refine List.find?_eq_none.mpr fun t ht => ?_
  have := h t ht
  simp only [Bool.and_eq_true, beq_iff_eq]
  tauto

theorem findTask_mem {tid uid : Nat} {tasks : List Task} {t : Task}
    (h : findTask tid uid tasks = some t) :
    t ∈ tasks ∧ t.id = tid ∧ t.userId = uid := by
  have hm := List.mem_of_find?_eq_some h
  have hp := List.find?_some h
  simp only [Bool.and_eq_true, beq_iff_eq] at hp
  exact ⟨hm, hp⟩

theorem findTask_saveTask {tid uid : Nat} {tasks : List Task} {t t2 : Task}
    (h : findTask tid uid tasks = some t) (hid : t2.id = t.id) (huid : t2.userId = t.userId) :
    findTask tid uid (saveTask t2 tasks) = some t2 := by
  obtain ⟨-, htid, htuid⟩ := findTask_mem h
  have hp2 : (t2.id == tid && t2.userId == uid) = true := by
    simp only [Bool.and_eq_true, beq_iff_eq]
    exact ⟨hid.trans htid, huid.trans htuid⟩
  induction tasks with
  | nil => simp [findTask] at h
  | cons x xs ih =>
    simp only [saveTask, List.map_cons]
    by_cases hbx : (x.id == t2.id) = true
    · rw [if_pos hbx]
      exact List.find?_cons_of_pos _ hp2
    · rw [if_neg hbx]
      have hpxf : (x.id == tid && x.userId == uid) = false := by
        rw [Bool.eq_false_iff]
        intro hc
        simp only [Bool.and_eq_true, beq_iff_eq] at hc
        exact hbx (by simp [hc.1, hid.trans htid])
      have h2 : findTask tid uid xs = some t := by
        simpa only [findTask, List.find?_cons, hpxf] using h
      have hrec := ih h2
      simp only [findTask, saveTask] at hrec ⊢
      simp only [List.find?_cons, hpxf]
      exact hrec

theorem saveTask_saveTask (t : Task) (tasks : List Task) :
    saveTask t (saveTask t tasks) = saveTask t tasks := by
  simp only [saveTask, List.map_map]
  refine List.map_congr_left fun x _ => ?_
  by_cases hx : x.id == t.id
  · simp [Function.comp, hx]
  · simp [Function.comp, hx]

theorem splitChar_ne_nil (c : Char) (l : List Char) : splitChar c l ≠ [] := by
  cases l with
  | nil => simp [splitChar]
  | cons x xs =>
    simp only [splitChar]
    split
    · simp
    · split <;> simp

theorem splitChar_cons (c x : Char) (l : List Char) :
    splitChar c (x :: l) =
      match splitChar c l with
      | [] => [[]]
      | w :: ws => if x = c then [] :: w :: ws else (x :: w) :: ws := rfl

theorem splitChar_not_mem {c : Char} {l : List Char} (h : c ∉ l) :
    splitChar c l = [l] := by
  induction l with
  | nil => rfl
  | cons x xs ih =>
    rw [List.mem_cons, not_or] at h
    rw [splitChar_cons, ih h.2]
    have hxc : ¬(x = c) := fun hh => h.1 hh.symm
    simp [hxc]

theorem splitChar_append {c : Char} {l1 l2 : List Char} (h1 : c ∉ l1) :
    splitChar c (l1 ++ c :: l2) = l1 :: splitChar c l2 := by
  obtain ⟨w, ws, hw⟩ : ∃ w ws, splitChar c l2 = w :: ws := by
    cases hsc : splitChar c l2 with
    | nil => exact absurd hsc (splitChar_ne_nil c l2)
    | cons w ws => exact ⟨w, ws, rfl⟩
  induction l1 with
  | nil =>
    rw [List.nil_append, splitChar_cons, hw]
    simp
  | cons x xs ih =>
    rw [List.mem_cons, not_or] at h1
    rw [List.cons_append, splitChar_cons, ih h1.2]
    have hxc : ¬(x = c) := fun hh => h1.1 hh.symm
    simp [hxc]

theorem extractToken_two_words {l1 l2 : List Char}
    (h1 : (' ' : Char) ∉ l1) (h2 : (' ' : Char) ∉ l2) (hne : l2 ≠ []) :
    extractToken (String.mk (l1 ++ ' ' :: l2)) = some (String.mk l2) := by
  rw [extractToken]
  show (match (splitChar ' ' (l1 ++ ' ' :: l2))[1]? with
    | none => none
    | some tok => if tok.isEmpty then none else some (String.mk tok)) = _
  rw [splitChar_append h1, splitChar_not_mem h2]
  simp only [List.getElem?_cons_succ, List.getElem?_cons_zero]
  rw [if_neg (by simpa [List.isEmpty_iff] using hne)]

theorem extractToken_single_word {w : String} (h : (' ' : Char) ∉ w.data) :
    extractToken w = none := by
  rw [extractToken]
  show (match (splitChar ' ' w.data)[1]? with
    | none => none
    | some tok => if tok.isEmpty then none else some (String.mk tok)) = _
  rw [splitChar_not_mem h]
  rfl

/-! ## Concrete instances used by the witnesses -/

/-- A sample verifier: exactly the token string `goodtoken` verifies, to
identity 7. -/
def exVerify : String → Option Nat :=
  fun s => if s == "goodtoken" then some 7 else none

/-- A sample protected handler whose output records the identity it was
invoked with. -/
def exHandler : Nat → List Task → TaskResult :=
  fun uid tasks => ⟨200 + uid, tasks, none⟩

/-- A sample stored task. -/
def exTask : Task :=
  { id := 1, title := "A", description := "d", priority := "High",
    status := "Pending", userId := 7, createdAt := 0 }

/-! ## Claims -/

/-- C5: Access Guard gate.  For every request to a protected task route: a
missing Authorization header yields 401 with the store untouched, whatever
the handler (so before any task handler runs); an extracted token that fails
verification yields 401 likewise; and only on successful verification is the
handler invoked, with the resolved identity. -/
theorem access_guard_gate (verify : String → Option Nat) (hdr : String) (tok : String)
    (uid : Nat) (handler : Nat → List Task → TaskResult) (tasks : List Task) :
    handleProtected verify none handler tasks = ⟨401, tasks, none⟩ ∧
    (extractToken hdr = none →
      handleProtected verify (some hdr) handler tasks = ⟨401, tasks, none⟩) ∧
    (extractToken hdr = some tok → verify tok = none →
      handleProtected verify (some hdr) handler tasks = ⟨401, tasks, none⟩) ∧
    (extractToken hdr = some tok → verify tok = some uid →
      handleProtected verify (some hdr) handler tasks = handler uid tasks) := by
  refine ⟨rfl, ?_, ?_, ?_⟩
  · intro he
    simp [handleProtected, authMiddleware, he]
  · intro he hv
    simp [handleProtected, authMiddleware, he, hv]
  · intro he hv
    simp [handleProtected, authMiddleware, he, hv]

/-- Witness for C5 at a concrete verifier, header, handler and store. -/
theorem access_guard_gate_witness :
    extractToken "Bearer badtok" = some "badtok" ∧
    exVerify "badtok" = none ∧
    handleProtected exVerify (some "Bearer badtok") exHandler [exTask] = ⟨401, [exTask], none⟩ ∧
    extractToken "Bearer goodtoken" = some "goodtoken" ∧
    exVerify "goodtoken" = some 7 ∧
    handleProtected exVerify (some "Bearer goodtoken") exHandler [exTask] = exHandler 7 [exTask] :=
  ⟨by decide, by decide,
    (access_guard_gate exVerify "Bearer badtok" "badtok" 0 exHandler [exTask]).2.2.1
      (by decide) (by decide),
    by decide, by decide,
    (access_guard_gate exVerify "Bearer goodtoken" "goodtoken" 7 exHandler [exTask]).2.2.2
      (by decide) (by decide)⟩

/-- C10: the Access Guard never checks the authorization scheme.  The guard
takes the second whitespace-separated component of the header as the token,
so any prefix word followed by a verifying token is accepted (the handler
runs with the verified identity), while a header consisting of a single word
is rejected with 401. -/
theorem guard_scheme_ignored (p t : String) (verify : String → Option Nat) (uid : Nat)
    (handler : Nat → List Task → TaskResult) (tasks : List Task)
    (hp : (' ' : Char) ∉ p.data) (ht : (' ' : Char) ∉ t.data) (hne : t.data ≠ [])
    (hv : verify t = some uid) :
    handleProtected verify (some (p ++ " " ++ t)) handler tasks = handler uid tasks ∧
    (∀ w : String, (' ' : Char) ∉ w.data →
      handleProtected verify (some w) handler tasks = ⟨401, tasks, none⟩) := by
  constructor
  · have hdata : (p ++ " " ++ t).data = p.data ++ ' ' :: t.data := by
      cases p with
      | mk pd =>
        cases t with
        | mk td => simp [String.data]
    have hmk : p ++ " " ++ t = String.mk (p.data ++ ' ' :: t.data) := by
      rw [← hdata]
    have hext : extractToken (p ++ " " ++ t) = some t := by
      rw [hmk, extractToken_two_words hp ht hne]
    simp [handleProtected, authMiddleware, hext, hv]
  · intro w hw
    simp [handleProtected, authMiddleware, extractToken_single_word hw]

/-- Witness for C10: a Basic-scheme header with a verifying token is
accepted, and the single word Bearer is rejected. -/
theorem guard_scheme_ignored_witness :
    handleProtected exVerify (some ("Basic" ++ " " ++ "goodtoken")) exHandler [exTask]
      = exHandler 7 [exTask] ∧
    handleProtected exVerify (some "Bearer") exHandler [exTask] = ⟨401, [exTask], none⟩ := by
  have hmain := guard_scheme_ignored "Basic" "goodtoken" exVerify 7 exHandler [exTask]
    (by decide) (by decide) (by decide) (by decide)
  exact ⟨hmain.1, hmain.2 "Bearer" (by decide)⟩

/-- C1: ownership isolation.  With distinct document ids in the store, for a
task `t` owned by user `B`, a List call by a different user `A` never returns
`t`, and Update, Delete and Complete calls by `A` on the id of `t` answer 404
and leave the store (hence `t`) unchanged. -/
theorem ownership_isolation (A B tid : Nat) (t : Task) (tasks : List Task) (body : UpdateBody)
    (hnodup : (tasks.map Task.id).Nodup)
    (ht : t ∈ tasks) (htid : t.id = tid) (hB : t.userId = B) (hAB : A ≠ B) :
    t ∉ (getAllTasks A tasks).2 ∧
    updateTask A tid body tasks = ⟨404, tasks, none⟩ ∧
    deleteTask A tid tasks = ⟨404, tasks, none⟩ ∧
    markTaskCompleted A tid tasks = ⟨404, tasks, none⟩ := by
  have hfind : findTask tid A tasks = none := by
    apply findTask_eq_none
    rintro u hu ⟨huid, huA⟩
    have hut : u = t := List.inj_on_of_nodup_map hnodup hu ht (huid.trans htid.symm)
    exact hAB (huA ▸ hB ▸ congrArg Task.userId hut)
  refine ⟨?_, ?_, ?_, ?_⟩
  · intro hmem
    have hmem2 : t ∈ tasks.filter (fun u => u.userId == A) :=
      ((sortByCreatedDesc_perm _).mem_iff).mp hmem
    have := (List.mem_filter.mp hmem2).2
    rw [beq_iff_eq] at this
    exact hAB (this ▸ hB)
  · simp [updateTask, hfind]
  · simp [deleteTask, hfind]
  · simp [markTaskCompleted, hfind]

/-- Witness for C1: user 8 acting on the task of user 7. -/
theorem ownership_isolation_witness :
    exTask ∈ [exTask] ∧
    (exTask ∉ (getAllTasks 8 [exTask]).2 ∧
      updateTask 8 1 ⟨some "X", none, none, none⟩ [exTask] = ⟨404, [exTask], none⟩ ∧
      deleteTask 8 1 [exTask] = ⟨404, [exTask], none⟩ ∧
      markTaskCompleted 8 1 [exTask] = ⟨404, [exTask], none⟩) :=
  ⟨by decide,
    ownership_isolation 8 7 1 exTask [exTask] ⟨some "X", none, none, none⟩
      (by decide) (by decide) (by decide) (by decide) (by decide)⟩

/-- C8: List ordering.  For every identity, `getAllTasks` responds 200 with
exactly the tasks owned by that identity (as a permutation of the ownership
filter, with the membership characterisation), sorted newest-created
first. -/
theorem list_ordering (A : Nat) (tasks : List Task) :
    (getAllTasks A tasks).1 = 200 ∧
    List.Perm (getAllTasks A tasks).2 (tasks.filter fun t => t.userId == A) ∧
    (∀ t, t ∈ (getAllTasks A tasks).2 ↔ t ∈ tasks ∧ t.userId = A) ∧
    (getAllTasks A tasks).2.Pairwise (fun a b => b.createdAt ≤ a.createdAt) := by
  refine ⟨rfl, sortByCreatedDesc_perm _, ?_, pairwise_sortByCreatedDesc _⟩
  intro t
  rw [show (getAllTasks A tasks).2 = sortByCreatedDesc (tasks.filter fun t => t.userId == A)
      from rfl]
  rw [(sortByCreatedDesc_perm _).mem_iff, List.mem_filter, beq_iff_eq]

/-- An empty or absent priority never passes the enum check. -/
theorem contains_of_not_truthy {o : Option String} (h : truthy o = false) :
    priorities.contains (jsOr o "") = false := by
  have : jsOr o "" = "" := by
    cases o with
    | none => rfl
    | some s =>
      have hs : s.isEmpty = true := by
        revert h
        simp only [truthy]
        cases s.isEmpty <;> simp
      simp [jsOr, hs]
  rw [this]
  decide

/-- Counterexample to C2 as stated: a whitespace-only title passes the
controller's truthiness check yet trims to the empty string under the schema
setters, so the required validator rejects at save and the call answers 500
with no task created — where the claim asserts a successful creation; and a
supplied description is persisted trimmed, not equal to the supplied
string. -/
theorem create_contract_counterexample :
    truthy (some " ") = true ∧
    priorities.contains "High" = true ∧
    createTask 7 ⟨some " ", none, some "High", none, none⟩ 10 3 [] = ⟨500, [], none⟩ ∧
    (createTask 7 ⟨some "T", some " d ", some "High", none, none⟩ 11 3 []).task.map
      Task.description = some "d" ∧
    (" d " : String) ≠ "d" := by
  decide

/-- C2 (amended): create contract with the schema setters and validators.
A falsy title or a priority outside the enum (in particular missing or
empty) is rejected with 400 and creates no task; a truthy title that trims
to the empty string fails the schema's required validator and the call
answers 500, creating no task; otherwise the call responds 201, appends
exactly the returned document to the store, and that document has status
Pending (whatever `body.status` the client sent), owner equal to the caller
(whatever `body.bodyUserId` the client sent), the trimmed supplied title,
and the trimmed supplied description or the empty string when absent. -/
theorem create_contract (uid : Nat) (body : CreateBody) (freshId now : Nat) (tasks : List Task) :
    ((truthy body.title = false ∨ priorities.contains (jsOr body.priority "") = false) →
      createTask uid body freshId now tasks = ⟨400, tasks, none⟩) ∧
    (truthy body.title = true → priorities.contains (jsOr body.priority "") = true →
      (trimString (jsOr body.title "")).isEmpty = true →
      createTask uid body freshId now tasks = ⟨500, tasks, none⟩) ∧
    (truthy body.title = true → priorities.contains (jsOr body.priority "") = true →
      (trimString (jsOr body.title "")).isEmpty = false →
      (createTask uid body freshId now tasks).code = 201 ∧
      (createTask uid body freshId now tasks).tasks
        = tasks ++ (createTask uid body freshId now tasks).task.toList ∧
      (createTask uid body freshId now tasks).task.map Task.status = some "Pending" ∧
      (createTask uid body freshId now tasks).task.map Task.userId = some uid ∧
      (createTask uid body freshId now tasks).task.map Task.title
        = some (trimString (jsOr body.title "")) ∧
      (createTask uid body freshId now tasks).task.map Task.description
        = some (trimString (jsOr body.description ""))) := by
  refine ⟨?_, ?_, ?_⟩
  · rintro (hf | hf)
    · simp [createTask, hf]
    · cases htp : truthy body.priority with
      | false => simp [createTask, htp]
      | true =>
        cases htt : truthy body.title with
        | false => simp [createTask, htt]
        | true =>
          have hmem : jsOr body.priority "" ∉ priorities := by simpa using hf
          simp [createTask, htt, htp, hmem]
  · intro htt hp hemp
    have htp : truthy body.priority = true := by
      cases htp : truthy body.priority with
      | false => rw [contains_of_not_truthy htp] at hp; cases hp
      | true => rfl
    have hmem : jsOr body.priority "" ∈ priorities := by simpa using hp
    simp [createTask, htt, htp, hmem, Task.createDoc, hemp]
  · intro htt hp hne
    have htp : truthy body.priority = true := by
      cases htp : truthy body.priority with
      | false => rw [contains_of_not_truthy htp] at hp; cases hp
      | true => rfl
    have hmem : jsOr body.priority "" ∈ priorities := by simpa using hp
    simp [createTask, htt, htp, hmem, Task.createDoc, hne]

/-- Witness for C2: a create call with a client-supplied status and owner,
both ignored, and a description the schema trims. -/
theorem create_contract_witness :
    truthy (some "T") = true ∧
    ((createTask 9 ⟨some "T", some " d ", some "High", some "Completed", some 3⟩ 10 5 []).code
        = 201 ∧
      (createTask 9 ⟨some "T", some " d ", some "High", some "Completed", some 3⟩ 10 5 []).tasks
        = [] ++ (createTask 9 ⟨some "T", some " d ", some "High", some "Completed", some 3⟩
            10 5 []).task.toList ∧
      (createTask 9 ⟨some "T", some " d ", some "High", some "Completed", some 3⟩
        10 5 []).task.map Task.status = some "Pending" ∧
      (createTask 9 ⟨some "T", some " d ", some "High", some "Completed", some 3⟩
        10 5 []).task.map Task.userId = some 9 ∧
      (createTask 9 ⟨some "T", some " d ", some "High", some "Completed", some 3⟩
        10 5 []).task.map Task.title = some (trimString (jsOr (some "T") "")) ∧
      (createTask 9 ⟨some "T", some " d ", some "High", some "Completed", some 3⟩
        10 5 []).task.map Task.description = some (trimString (jsOr (some " d ") ""))) :=
  ⟨by decide,
    (create_contract 9 ⟨some "T", some " d ", some "High", some "Completed", some 3⟩
      10 5 []).2.2 (by decide) (by decide) (by decide)⟩

/-- Shared helper: on a found task, a truthy priority or status outside its
enum makes `updateTask` answer 400 with the store returned unchanged (both
enum checks run before `task.save()`). -/
theorem updateTask_invalid_enum (uid tid : Nat) (body : UpdateBody) (tasks : List Task)
    (t : Task)
    (hfind : findTask tid uid tasks = some t)
    (hbad : (truthy body.priority = true ∧ priorities.contains (jsOr body.priority "") = false)
      ∨ (truthy body.status = true ∧ statuses.contains (jsOr body.status "") = false)) :
    updateTask uid tid body tasks = ⟨400, tasks, none⟩ := by
  rcases hbad with ⟨h1, h2⟩ | ⟨h1, h2⟩
  · have hmem : jsOr body.priority "" ∉ priorities := by simpa using h2
    simp [updateTask, hfind, h1, hmem]
  · have hmem : jsOr body.status "" ∉ statuses := by simpa using h2
    cases hpc : truthy body.priority && !priorities.contains (jsOr body.priority "") with
    | true =>
      have hcomp := hpc
      rw [Bool.and_eq_true] at hcomp
      have hpb : priorities.contains (jsOr body.priority "") = false := by
        have hb := hcomp.2
        revert hb
        cases priorities.contains (jsOr body.priority "") <;> simp
      have hmem2 : jsOr body.priority "" ∉ priorities := by simpa using hpb
      simp [updateTask, hfind, hcomp.1, hmem2]
    | false => simp [updateTask, hfind, hpc, h1, hmem]

/-- Counterexample to C9 as stated: a priority supplied as the empty string
is a value outside {High, Medium, Low}, yet the JS truthiness check skips it
— the update answers 200 and persists the accompanying title change, a
partial update the claim rules out. -/
theorem update_validation_atomic_counterexample :
    (⟨some "New", none, some "", none⟩ : UpdateBody).priority = some "" ∧
    priorities.contains "" = false ∧
    (updateTask 7 1 ⟨some "New", none, some "", none⟩ [exTask]).code = 200 ∧
    (updateTask 7 1 ⟨some "New", none, some "", none⟩ [exTask]).tasks
      = [{ exTask with title := "New" }] ∧
    ("New" : String) ≠ exTask.title := by
  decide

/-- C9 (amended): update atomicity on validation failure, for non-empty
enum values.  When the task is found for the caller and the request carries
a truthy (present and non-empty) priority or status outside its enum, the
response is 400 and the store is returned unchanged — even when the same
request carries valid title or description changes; an empty-string priority
or status is not a validation failure (it is skipped, see the C9
counterexample). -/
theorem update_validation_atomic (uid tid : Nat) (body : UpdateBody) (tasks : List Task)
    (t : Task)
    (hfind : findTask tid uid tasks = some t)
    (hbad : (truthy body.priority = true ∧ priorities.contains (jsOr body.priority "") = false)
      ∨ (truthy body.status = true ∧ statuses.contains (jsOr body.status "") = false)) :
    updateTask uid tid body tasks = ⟨400, tasks, none⟩ :=
  updateTask_invalid_enum uid tid body tasks t hfind hbad

/-- Witness for C9: an update carrying a new title together with a bad
priority changes nothing. -/
theorem update_validation_atomic_witness :
    findTask 1 7 [exTask] = some exTask ∧
    updateTask 7 1 ⟨some "New title", some "new desc", some "Urgent", none⟩ [exTask]
      = ⟨400, [exTask], none⟩ :=
  ⟨by decide,
    update_validation_atomic 7 1 ⟨some "New title", some "new desc", some "Urgent", none⟩
      [exTask] exTask (by decide) (Or.inl ⟨by decide, by decide⟩)⟩

/-- C4: Complete is unconditional and idempotent.  On a task found for the
caller, `markTaskCompleted` responds 200 with status Completed whatever the
current status was, and a second call on the resulting store responds 200
again, returns the same document, and leaves the store exactly as after the
first call. -/
theorem complete_idempotent (uid tid : Nat) (tasks : List Task) (t : Task)
    (hfind : findTask tid uid tasks = some t) :
    (markTaskCompleted uid tid tasks).code = 200 ∧
    (markTaskCompleted uid tid tasks).task.map Task.status = some "Completed" ∧
    (markTaskCompleted uid tid (markTaskCompleted uid tid tasks).tasks).code = 200 ∧
    (markTaskCompleted uid tid (markTaskCompleted uid tid tasks).tasks).task.map Task.status
      = some "Completed" ∧
    (markTaskCompleted uid tid (markTaskCompleted uid tid tasks).tasks).task
      = (markTaskCompleted uid tid tasks).task ∧
    (markTaskCompleted uid tid (markTaskCompleted uid tid tasks).tasks).tasks
      = (markTaskCompleted uid tid tasks).tasks := by
  have h1 : markTaskCompleted uid tid tasks
      = ⟨200, saveTask { t with status := "Completed" } tasks,
          some { t with status := "Completed" }⟩ := by
    simp [markTaskCompleted, hfind]
  have hfind2 : findTask tid uid (saveTask { t with status := "Completed" } tasks)
      = some { t with status := "Completed" } :=
    findTask_saveTask hfind rfl rfl
  have h2 : markTaskCompleted uid tid (saveTask { t with status := "Completed" } tasks)
      = ⟨200, saveTask { t with status := "Completed" } tasks,
          some { t with status := "Completed" }⟩ := by
    simp only [markTaskCompleted, hfind2]
    rw [saveTask_saveTask]
  rw [h1]
  refine ⟨rfl, rfl, ?_, ?_, ?_, ?_⟩
  · show (markTaskCompleted uid tid (saveTask { t with status := "Completed" } tasks)).code = 200
    rw [h2]
  · show (markTaskCompleted uid tid
        (saveTask { t with status := "Completed" } tasks)).task.map Task.status
        = some "Completed"
    rw [h2]
    rfl
  · show (markTaskCompleted uid tid (saveTask { t with status := "Completed" } tasks)).task
        = some { t with status := "Completed" }
    rw [h2]
  · show (markTaskCompleted uid tid (saveTask { t with status := "Completed" } tasks)).tasks
        = saveTask { t with status := "Completed" } tasks
    rw [h2]

/-- Witness for C4 on a pending task of user 7. -/
theorem complete_idempotent_witness :
    findTask 1 7 [exTask] = some exTask ∧
    ((markTaskCompleted 7 1 [exTask]).code = 200 ∧
      (markTaskCompleted 7 1 [exTask]).task.map Task.status = some "Completed" ∧
      (markTaskCompleted 7 1 (markTaskCompleted 7 1 [exTask]).tasks).code = 200 ∧
      (markTaskCompleted 7 1 (markTaskCompleted 7 1 [exTask]).tasks).task.map Task.status
        = some "Completed" ∧
      (markTaskCompleted 7 1 (markTaskCompleted 7 1 [exTask]).tasks).task
        = (markTaskCompleted 7 1 [exTask]).task ∧
      (markTaskCompleted 7 1 (markTaskCompleted 7 1 [exTask]).tasks).tasks
        = (markTaskCompleted 7 1 [exTask]).tasks) :=
  ⟨by decide, complete_idempotent 7 1 [exTask] exTask (by decide)⟩

/-- Counterexample to C3 as stated: a title field that is present with the
empty string is NOT applied (the call succeeds with the stored title kept),
and a status field present with the empty string — a value outside
{Pending, Completed} — is silently ignored with a 200 instead of failing
with 400. -/
theorem update_contract_counterexample :
    (⟨some "", none, none, none⟩ : UpdateBody).title = some "" ∧
    updateTask 7 1 ⟨some "", none, none, none⟩ [exTask] = ⟨200, [exTask], some exTask⟩ ∧
    exTask.title = "A" ∧
    (⟨none, none, none, some ""⟩ : UpdateBody).status = some "" ∧
    statuses.contains "" = false ∧
    (updateTask 7 1 ⟨none, none, none, some ""⟩ [exTask]).code = 200 := by
  decide

/-- The field application a successful `updateTask` performs: a JS-truthy
(present and non-empty) title, priority or status overwrites the stored
field after its trim setter, a description overwrites (trimmed) whenever it
is present (even empty). -/
def applyUpdate (body : UpdateBody) (t : Task) : Task :=
  { t with
    title := if truthy body.title then trimString (jsOr body.title "") else t.title,
    description := match body.description with
      | some d => trimString d
      | none => t.description,
    priority := if truthy body.priority then jsOr body.priority "" else t.priority,
    status := if truthy body.status then jsOr body.status "" else t.status }

/-- C3 (amended): update contract under JavaScript truthiness and the schema
setters.  An update on a task located by (id, owner = caller) answers 404
when the task is absent; a truthy priority or status outside its enum fails
with 400 and nothing is persisted; when the resulting document's title is
empty (a truthy title trimmed to nothing), save-time required validation
fails and the call answers 500, persisting nothing; otherwise the call
answers 200, applies exactly the truthy title/priority/status fields and any
present description — title and description trimmed, an empty-string title,
priority or status ignored without error — and persists the result; in
particular a status field Pending sets a Completed task back to Pending. -/
theorem update_contract (uid tid : Nat) (body : UpdateBody) (tasks : List Task) (t : Task) :
    (findTask tid uid tasks = none → updateTask uid tid body tasks = ⟨404, tasks, none⟩) ∧
    (findTask tid uid tasks = some t →
      ((truthy body.priority = true ∧ priorities.contains (jsOr body.priority "") = false) →
        updateTask uid tid body tasks = ⟨400, tasks, none⟩) ∧
      ((truthy body.status = true ∧ statuses.contains (jsOr body.status "") = false) →
        updateTask uid tid body tasks = ⟨400, tasks, none⟩) ∧
      ((truthy body.priority = true → priorities.contains (jsOr body.priority "") = true) →
        (truthy body.status = true → statuses.contains (jsOr body.status "") = true) →
        (applyUpdate body t).title.isEmpty = true →
        updateTask uid tid body tasks = ⟨500, tasks, none⟩) ∧
      ((truthy body.priority = true → priorities.contains (jsOr body.priority "") = true) →
        (truthy body.status = true → statuses.contains (jsOr body.status "") = true) →
        (applyUpdate body t).title.isEmpty = false →
        updateTask uid tid body tasks
          = ⟨200, saveTask (applyUpdate body t) tasks, some (applyUpdate body t)⟩) ∧
      (body.status = some "Pending" →
        (truthy body.priority = true → priorities.contains (jsOr body.priority "") = true) →
        (applyUpdate body t).title.isEmpty = false →
        (updateTask uid tid body tasks).task.map Task.status = some "Pending")) := by
  constructor
  · intro hnone
    simp [updateTask, hnone]
  · intro hfind
    have hcore :
        (truthy body.priority = true → priorities.contains (jsOr body.priority "") = true)
        → (truthy body.status = true → statuses.contains (jsOr body.status "") = true)
        → updateTask uid tid body tasks
          = if (applyUpdate body t).title.isEmpty then ⟨500, tasks, none⟩
            else ⟨200, saveTask (applyUpdate body t) tasks, some (applyUpdate body t)⟩ := by
      intro hpok hsok
      have hpc : (truthy body.priority && !priorities.contains (jsOr body.priority "")) = false := by
        cases hpt : truthy body.priority with
        | false => rfl
        | true =>
          have hc := hpok hpt
          rw [hc]
          rfl
      have hsc : (truthy body.status && !statuses.contains (jsOr body.status "")) = false := by
        cases hst : truthy body.status with
        | false => rfl
        | true =>
          have hc := hsok hst
          rw [hc]
          rfl
      simp only [updateTask, hfind, hpc, hsc, Bool.false_eq_true, if_false]
      cases htt : truthy body.title <;>
        cases hd : body.description <;>
          cases hpt : truthy body.priority <;>
            cases hst : truthy body.status <;>
              simp [applyUpdate, htt, hd, hpt, hst]
    refine ⟨?_, ?_, ?_, ?_, ?_⟩
    · rintro ⟨h1, h2⟩
      exact updateTask_invalid_enum uid tid body tasks t hfind (Or.inl ⟨h1, h2⟩)
    · rintro ⟨h1, h2⟩
      exact updateTask_invalid_enum uid tid body tasks t hfind (Or.inr ⟨h1, h2⟩)
    · intro hpok hsok hemp
      rw [hcore hpok hsok, if_pos hemp]
    · intro hpok hsok hne
      rw [hcore hpok hsok, if_neg (by simp [hne])]
    · intro hsp hpok hne
      have hsok : truthy body.status = true → statuses.contains (jsOr body.status "") = true := by
        intro
        rw [hsp]
        decide
      rw [hcore hpok hsok, if_neg (by simp [hne])]
      have hps : (applyUpdate body t).status = "Pending" := by
        simp [applyUpdate, hsp, truthy, jsOr, show "Pending".isEmpty = false from rfl]
      simp [hps]

/-- Witness for C3 (amended): a completion-and-trimmed-description update on
the stored example task. -/
theorem update_contract_witness :
    findTask 1 7 [exTask] = some exTask ∧
    updateTask 7 1 ⟨none, some " x ", some "Low", some "Completed"⟩ [exTask]
      = ⟨200,
          saveTask (applyUpdate ⟨none, some " x ", some "Low", some "Completed"⟩ exTask) [exTask],
          some (applyUpdate ⟨none, some " x ", some "Low", some "Completed"⟩ exTask)⟩ :=
  ⟨by decide,
    ((update_contract 7 1 ⟨none, some " x ", some "Low", some "Completed"⟩ [exTask] exTask).2
      (by decide)).2.2.2.1 (by decide) (by decide) (by decide)⟩

/-- C6: register/login round-trip.  For a valid credential pair (non-empty
email, password of schema-accepted length) whose email is not yet
registered: register answers 201 with a token and the fresh user id; a
subsequent login with the same email and password answers 200 with a token
and the same user id; and verifying either token (with the signing secret,
before its 7-day expiry) yields exactly that user id. -/
theorem register_login_roundtrip (email password : String)
    (secret now1 now2 nowv1 nowv2 : Nat) (st : AuthState)
    (hemail : email.isEmpty = false) (hpw : password.isEmpty = false)
    (hlen : 6 ≤ password.length)
    (hfresh : findByEmail email st.users = none)
    (hv1 : nowv1 < now1 + 7 * 24 * 60 * 60) (hv2 : nowv2 < now2 + 7 * 24 * 60 * 60) :
    (register email password secret now1 st).code = 201 ∧
    (register email password secret now1 st).retUserId = some st.nextId ∧
    (login email password secret now2 (register email password secret now1 st).state).code
      = 200 ∧
    (login email password secret now2 (register email password secret now1 st).state).retUserId
      = some st.nextId ∧
    (register email password secret now1 st).token.map (verifyToken secret nowv1)
      = some (some st.nextId) ∧
    (login email password secret now2
        (register email password secret now1 st).state).token.map (verifyToken secret nowv2)
      = some (some st.nextId) := by
  have hnl : ¬(password.length < 6) := Nat.not_lt.mpr hlen
  have hreg : register email password secret now1 st
      = ⟨201, ⟨st.users ++ [⟨st.nextId, normalizeEmail email, password⟩], st.nextId + 1⟩,
          some (generateToken st.nextId secret now1), some st.nextId⟩ := by
    simp [register, hemail, hpw, hfresh, hnl]
  have hfind2 : findByEmail email
      (st.users ++ [⟨st.nextId, normalizeEmail email, password⟩])
      = some ⟨st.nextId, normalizeEmail email, password⟩ := by
    rw [findByEmail, List.find?_append]
    rw [findByEmail] at hfresh
    rw [hfresh]
    simp
  have hlog : login email password secret now2
      (⟨st.users ++ [⟨st.nextId, normalizeEmail email, password⟩], st.nextId + 1⟩ : AuthState)
      = ⟨200, ⟨st.users ++ [⟨st.nextId, normalizeEmail email, password⟩], st.nextId + 1⟩,
          some (generateToken st.nextId secret now2), some st.nextId⟩ := by
    simp [login, hemail, hpw, hfind2]
  have hver1 : verifyToken secret nowv1 (generateToken st.nextId secret now1)
      = some st.nextId := by
    simp [verifyToken, generateToken, hv1]
  have hver2 : verifyToken secret nowv2 (generateToken st.nextId secret now2)
      = some st.nextId := by
    simp [verifyToken, generateToken, hv2]
  rw [hreg]
  refine ⟨rfl, rfl, ?_, ?_, ?_, ?_⟩
  · show (login email password secret now2
        (⟨st.users ++ [⟨st.nextId, normalizeEmail email, password⟩], st.nextId + 1⟩ :
          AuthState)).code = 200
    rw [hlog]
  · show (login email password secret now2
        (⟨st.users ++ [⟨st.nextId, normalizeEmail email, password⟩], st.nextId + 1⟩ :
          AuthState)).retUserId = some st.nextId
    rw [hlog]
  · show (some (generateToken st.nextId secret now1)).map (verifyToken secret nowv1)
        = some (some st.nextId)
    simp [hver1]
  · show (login email password secret now2
        (⟨st.users ++ [⟨st.nextId, normalizeEmail email, password⟩], st.nextId + 1⟩ :
          AuthState)).token.map (verifyToken secret nowv2) = some (some st.nextId)
    rw [hlog]
    simp [hver2]

/-- Witness for C6 on a fresh store. -/
theorem register_login_roundtrip_witness :
    findByEmail "al@x.com" ([] : List StoredUser) = none ∧
    ((register "al@x.com" "secret1" 42 100 ⟨[], 0⟩).code = 201 ∧
      (register "al@x.com" "secret1" 42 100 ⟨[], 0⟩).retUserId = some 0 ∧
      (login "al@x.com" "secret1" 42 200
        (register "al@x.com" "secret1" 42 100 ⟨[], 0⟩).state).code = 200 ∧
      (login "al@x.com" "secret1" 42 200
        (register "al@x.com" "secret1" 42 100 ⟨[], 0⟩).state).retUserId = some 0 ∧
      (register "al@x.com" "secret1" 42 100 ⟨[], 0⟩).token.map (verifyToken 42 150)
        = some (some 0) ∧
      (login "al@x.com" "secret1" 42 200
          (register "al@x.com" "secret1" 42 100 ⟨[], 0⟩).state).token.map (verifyToken 42 250)
        = some (some 0)) :=
  ⟨by decide,
    register_login_roundtrip "al@x.com" "secret1" 42 100 200 150 250 ⟨[], 0⟩
      (by decide) (by decide) (by decide) (by decide) (by decide) (by decide)⟩

/-- C7: email uniqueness.  Registering with an email for which a user record
already exists answers 400 and creates no user (the store is unchanged); and
register — the only user-creating operation — preserves pairwise-distinct
emails of the stored users. -/
theorem register_email_unique (email password : String) (secret now : Nat) (st : AuthState) :
    ((findByEmail email st.users).isSome = true →
      (register email password secret now st).code = 400 ∧
      (register email password secret now st).state = st) ∧
    (st.users.Pairwise (fun a b => a.email ≠ b.email) →
      (register email password secret now st).state.users.Pairwise
        (fun a b => a.email ≠ b.email)) := by
  constructor
  · intro hsome
    cases hcred : email.isEmpty || password.isEmpty with
    | true => simp [register, hcred]
    | false =>
      obtain ⟨u, hu⟩ := Option.isSome_iff_exists.mp hsome
      have h1 : email.isEmpty = false := by
        revert hcred
        cases email.isEmpty <;> simp
      have h2 : password.isEmpty = false := by
        revert hcred
        cases email.isEmpty <;> cases password.isEmpty <;> simp
      simp [register, h1, h2, hu]
  · intro hpair
    cases hcred : email.isEmpty || password.isEmpty with
    | true => simpa [register, hcred] using hpair
    | false =>
      have h1 : email.isEmpty = false := by
        revert hcred
        cases email.isEmpty <;> simp
      have h2 : password.isEmpty = false := by
        revert hcred
        cases email.isEmpty <;> cases password.isEmpty <;> simp
      cases hf : findByEmail email st.users with
      | some u => simpa [register, h1, h2, hf] using hpair
      | none =>
        by_cases hl : password.length < 6
        · simpa [register, h1, h2, hf, hl] using hpair
        · have hstate : (register email password secret now st).state.users
              = st.users ++ [⟨st.nextId, normalizeEmail email, password⟩] := by
            simp [register, h1, h2, hf, hl]
          rw [hstate, List.pairwise_append]
          refine ⟨hpair, List.pairwise_singleton _ _, ?_⟩
          intro a ha b hb
          have hb2 : b = ⟨st.nextId, normalizeEmail email, password⟩ := by
            simpa using hb
          subst hb2
          have hne := List.find?_eq_none.mp hf a ha
          simpa using hne

/-- Witness for C7: a second registration under an equivalent email
(normalisation maps it to the stored one) is rejected and the store is
unchanged; distinct emails stay distinct. -/
theorem register_email_unique_witness :
    (findByEmail "Al@x.com"
      [({ id := 0, email := "al@x.com", password := "secret1" } : StoredUser)]).isSome = true ∧
    (register "Al@x.com" "other-password" 42 300
        ⟨[{ id := 0, email := "al@x.com", password := "secret1" }], 1⟩).code = 400 ∧
    (register "Al@x.com" "other-password" 42 300
        ⟨[{ id := 0, email := "al@x.com", password := "secret1" }], 1⟩).state
      = ⟨[{ id := 0, email := "al@x.com", password := "secret1" }], 1⟩ :=
  ⟨by decide,
    ((register_email_unique "Al@x.com" "other-password" 42 300
        ⟨[{ id := 0, email := "al@x.com", password := "secret1" }], 1⟩).1 (by decide)).1,
    ((register_email_unique "Al@x.com" "other-password" 42 300
        ⟨[{ id := 0, email := "al@x.com", password := "secret1" }], 1⟩).1 (by decide)).2⟩

end TaskTracker
